import Mathlib

/-!
# Verification of the `james-shell` command execution engine

A shallow embedding, in Lean 4, of the parts of the `james-shell` (jsh)
Rust sources that the specification's claims are about:

* `src/status.rs` — the wait-status → exit-code codec;
* `src/executor.rs` — redirection resolution (`resolve_redirections`),
  spawn-error mapping (`command_error`), the pipeline executor's control
  flow and child accounting, and the single-command dispatcher `execute`;
* `src/builtins.rs` — the builtin dispatcher, in particular `builtin_cd`;
* `src/jobs.rs` — the job table and its id discipline;
* `src/main.rs` — the `&&` / `||` / `;` chain driver loop.

OS effects are made explicit: file handles are modelled by their
descriptors (path and append mode); opening a file and duplicating a
handle are modelled as succeeding (the claims under study are about
handle plumbing, not filesystem failures); process spawning, waiting and
directory changes are parameterised by explicit oracles so that every
control path of the Rust code is reachable in the model.
-/

namespace JamesShell

/-! ## `src/status.rs` — status codec -/

/-- Model of `std::process::ExitStatus`: a process either exited normally
with a code, was terminated by a signal, or neither (e.g. stopped). -/
inductive ExitStatusModel where
  | exited (code : Int)
  | signaled (sig : Int)
  | other
  deriving DecidableEq, Repr

/-- Model of Rust `ExitStatus::code()`: `Some` only for a normal exit. -/
def ExitStatusModel.code : ExitStatusModel → Option Int
  | .exited c => some c
  | _ => none

/-- Model of Unix `ExitStatusExt::signal()`: the terminating signal, if any. -/
def ExitStatusModel.signal : ExitStatusModel → Option Int
  | .signaled s => some s
  | _ => none

/-- Embedding of `status::exit_code` (src/status.rs:4-18): return the exit
code if the process exited, else `128 + signal` if it was killed by a
signal, else `1`. -/
def exit_code (status : ExitStatusModel) : Int :=
  match status.code with
  | some code => code
  | none =>
    match status.signal with
    | some signal => 128 + signal
    | none => 1

/-- Embedding of `status::exit_code_from_wait_status` (src/status.rs:21-32):
same classification over a raw wait status, returning `none` when the
status is neither an exit nor a signal termination. -/
def exit_code_from_wait_status (status : ExitStatusModel) : Option Int :=
  match status with
  | .exited c => some c
  | .signaled s => some (128 + s)
  | .other => none

/-! ## `src/executor.rs` — spawn-error mapping -/

/-- Model of the `std::io::ErrorKind` values `command_error` distinguishes,
together with the error's display text for the generic message. -/
inductive IoErrorKind where
  | notFound
  | permissionDenied
  | otherKind
  deriving DecidableEq, Repr

/-- Model of a `std::io::Error`: a kind plus its display text. -/
structure IoError where
  kind : IoErrorKind
  display : String
  deriving DecidableEq, Repr

/-- Embedding of `command_error` (src/executor.rs:892-900): map a spawn
error to the stderr message it prints and the exit code it returns. -/
def command_error (program : String) (e : IoError) : String × Int :=
  if e.kind = IoErrorKind.notFound then
    ("jsh: command not found: " ++ program, 127)
  else
    ("jsh: " ++ program ++ ": " ++ e.display, 126)

/-! ## `src/redirect.rs` / `src/executor.rs` — redirection resolution

Handles are modelled by their descriptors: an opened file is its path plus
append mode, a pipe endpoint is a bare tag.  `File::try_clone` /
`PipeWriter::try_clone` yield a new OS handle for the *same* resource, so
at the descriptor level a duplicate is equal to the original; the model
treats file opens and duplications as succeeding. -/

/-- Embedding of `RedirectTarget` (src/redirect.rs:6-17). -/
inductive RedirectTarget where
  | file (path : String)
  | fileAppend (path : String)
  | fileRead (path : String)
  | fd (n : Int)
  | hereString (text : String)
  deriving DecidableEq, Repr

/-- Embedding of `Redirection` (src/redirect.rs:20-24). -/
structure Redirection where
  fd : Int
  target : RedirectTarget
  deriving DecidableEq, Repr

/-- Embedding of `is_null_device` (src/redirect.rs:411-417), Unix branch. -/
def is_null_device (path : String) : Bool :=
  path = "/dev/null"

/-- Embedding of `InputHandle` (src/executor.rs:419-425), at descriptor level. -/
inductive InputHandle where
  | inherit
  | pipe
  | file (path : String)
  | hereString (text : String)
  deriving DecidableEq, Repr

/-- Embedding of `OutputHandle` (src/executor.rs:427-433), at descriptor level. -/
inductive OutputHandle where
  | inherit
  | null
  | file (path : String) (append : Bool)
  | pipe
  deriving DecidableEq, Repr

/-- Embedding of `OutputHandle::try_clone` (src/executor.rs:448-462):
every variant duplicates to a handle for the same underlying resource,
which at descriptor level is the handle itself. -/
def OutputHandle.try_clone (h : OutputHandle) : OutputHandle := h

/-- Embedding of `ResolvedRedirections` (src/executor.rs:435-440). -/
structure ResolvedRedirections where
  stdin : InputHandle
  stdout : OutputHandle
  stderr : OutputHandle
  stdout_redirected : Bool
  deriving DecidableEq, Repr

/-- Embedding of `RedirectionDefaults` (src/executor.rs:442-446). -/
structure RedirectionDefaults where
  stdin : InputHandle
  stdout : OutputHandle
  stderr : OutputHandle
  deriving DecidableEq, Repr

/-- Embedding of `open_output_file` (src/executor.rs:583-600): the null
device becomes the portable `Null` sink, any other path an opened file
descriptor with the given append mode. -/
def open_output_file (path : String) (append : Bool) : OutputHandle :=
  if is_null_device path then OutputHandle.null
  else OutputHandle.file path append

/-- Embedding of `open_input_file` (src/executor.rs:602-605). -/
def open_input_file (path : String) : InputHandle :=
  InputHandle.file path

/-- One iteration of the `for redir in redirections` loop of
`resolve_redirections` (src/executor.rs:518-573), dispatching on
`(target, fd)` in the source's match-arm order (the self-duplication
guard arm comes first). -/
def applyRedirection (st : ResolvedRedirections) (redir : Redirection) :
    Except String ResolvedRedirections :=
  if let RedirectTarget.fd target := redir.target then
    if target = redir.fd then
      -- fd duplicated to itself — no-op
      Except.ok st
    else if target = 1 ∧ redir.fd = 2 then
      -- 2>&1: stderr → wherever stdout currently points
      Except.ok { st with stderr := st.stdout.try_clone }
    else if target = 2 ∧ redir.fd = 1 then
      -- 1>&2: stdout → wherever stderr currently points
      Except.ok { st with stdout := st.stderr.try_clone, stdout_redirected := true }
    else
      Except.error ("jsh: unsupported redirection: fd " ++ toString redir.fd)
  else
    match redir.target, redir.fd with
    | RedirectTarget.file path, 1 =>
      Except.ok { st with stdout := open_output_file path false, stdout_redirected := true }
    | RedirectTarget.fileAppend path, 1 =>
      Except.ok { st with stdout := open_output_file path true, stdout_redirected := true }
    | RedirectTarget.fileRead path, 0 =>
      Except.ok { st with stdin := open_input_file path }
    | RedirectTarget.file path, 2 =>
      Except.ok { st with stderr := open_output_file path false }
    | RedirectTarget.fileAppend path, 2 =>
      Except.ok { st with stderr := open_output_file path true }
    | RedirectTarget.hereString text, 0 =>
      Except.ok { st with stdin := InputHandle.hereString text }
    | _, fd =>
      Except.error ("jsh: unsupported redirection: fd " ++ toString fd)

/-- The loop of `resolve_redirections`, left to right over the list. -/
def resolveLoop (redirections : List Redirection) (st : ResolvedRedirections) :
    Except String ResolvedRedirections :=
  match redirections with
  | [] => Except.ok st
  | redir :: rest =>
    match applyRedirection st redir with
    | Except.ok st' => resolveLoop rest st'
    | Except.error e => Except.error e

/-- Embedding of `resolve_redirections` (src/executor.rs:509-581): start
from the defaults with `stdout_redirected = false` and fold the list. -/
def resolve_redirections (redirections : List Redirection)
    (defaults : RedirectionDefaults) : Except String ResolvedRedirections :=
  resolveLoop redirections
    { stdin := defaults.stdin
      stdout := defaults.stdout
      stderr := defaults.stderr
      stdout_redirected := false }

/-- The stdin/stdout/stderr triple of a resolution result, reused as the
defaults of a second resolution pass. -/
def ResolvedRedirections.toDefaults (r : ResolvedRedirections) : RedirectionDefaults :=
  { stdin := r.stdin, stdout := r.stdout, stderr := r.stderr }

/-! ## `src/ast.rs` / `src/main.rs` — chain connectors and the chain loop -/

/-- Embedding of `Connector` (src/ast.rs). -/
inductive Connector where
  | sequence
  | and
  | or
  deriving DecidableEq, Repr

/-- Embedding of `ExecutionAction` (src/executor.rs:20-24). -/
inductive ExecutionAction where
  | continue_ (code : Int)
  | exit (code : Int)
  deriving DecidableEq, Repr

/-- One pre-validated chain entry, with executing the entry abstracted to
the `ExecutionAction` it would return and the stdout lines it would
print: the Phase 3 loop of `main` consumes exactly these two outputs of
an entry. -/
structure ChainEntry where
  connector : Connector
  result : ExecutionAction
  output : List String
  deriving Repr

/-- The `should_run` test of the Phase 3 loop (src/main.rs:217-221). -/
def shouldRun (connector : Connector) (last_exit_code : Int) : Bool :=
  match connector with
  | Connector.sequence => true
  | Connector.and => last_exit_code = 0
  | Connector.or => last_exit_code ≠ 0

/-- Embedding of the Phase 3 chain loop of `main` (src/main.rs:214-297):
walk the entries; run an entry iff `shouldRun` holds of its connector and
the current `$?`; a run entry updates `$?` and contributes its output; an
`Exit` action stops the walk.  Returns the final `$?` and the
concatenated stdout of the entries that ran. -/
def runChain (last_exit_code : Int) : List ChainEntry → Int × List String
  | [] => (last_exit_code, [])
  | entry :: rest =>
    if shouldRun entry.connector last_exit_code then
      match entry.result with
      | ExecutionAction.continue_ code =>
        let (final, out) := runChain code rest
        (final, entry.output ++ out)
      | ExecutionAction.exit code => (code, entry.output)
    else
      runChain last_exit_code rest

/-! ## `src/jobs.rs` — job table -/

/-- Embedding of `JobStatus` (src/jobs.rs:7-12). -/
inductive JobStatus where
  | running
  | stopped
  | done (code : Int)
  deriving DecidableEq, Repr

/-- Embedding of `Job` (src/jobs.rs:14-22); the `Child` handle is
represented by its pid. -/
structure Job where
  id : Nat
  pid : Nat
  pgid : Nat
  command : String
  status : JobStatus
  deriving DecidableEq, Repr

/-- Embedding of `JobTable` (src/jobs.rs:24-28); the `HashMap<usize, Job>`
is modelled as an association list with unique keys. -/
structure JobTable where
  jobs : List (Nat × Job)
  next_id : Nat
  deriving Repr

/-- Embedding of `JobTable::new` (src/jobs.rs:37-42). -/
def JobTable.new : JobTable :=
  { jobs := [], next_id := 1 }

/-- `HashMap::insert`: replace the binding for `id` if present, else add. -/
def JobTable.insert (t : JobTable) (id : Nat) (job : Job) : JobTable :=
  { t with jobs := (id, job) :: t.jobs.filter (fun kv => kv.1 ≠ id) }

/-- `HashMap::get` / `get_mut` lookup. -/
def JobTable.get (t : JobTable) (id : Nat) : Option Job :=
  (t.jobs.find? (fun kv => kv.1 = id)).map Prod.snd

/-- Embedding of `JobTable::add_with_pgid` (src/jobs.rs:51-67): insert a
fresh Running job under `next_id`, then increment `next_id`; returns
`(id, pid)` and the updated table. -/
def JobTable.add_with_pgid (t : JobTable) (pid : Nat) (command : String)
    (pgid : Nat) : (Nat × Nat) × JobTable :=
  let id := t.next_id
  let t' := t.insert id
    { id := id, pid := pid, pgid := pgid, command := command,
      status := JobStatus.running }
  ((id, pid), { t' with next_id := t.next_id + 1 })

/-- Embedding of `JobTable::add` (src/jobs.rs:45-48): pgid defaults to the
child's pid. -/
def JobTable.add (t : JobTable) (pid : Nat) (command : String) :
    (Nat × Nat) × JobTable :=
  t.add_with_pgid pid command pid

/-- Update the status of the job bound to `id`, if any (the
`get_mut`-then-assign pattern used throughout the sources). -/
def JobTable.setStatus (t : JobTable) (id : Nat) (status : JobStatus) : JobTable :=
  { t with
    jobs := t.jobs.map (fun kv => if kv.1 = id then (kv.1, { kv.2 with status := status }) else kv) }

/-- Embedding of `JobTable::add_stopped_with_pgid` (src/jobs.rs:76-87):
add, then mark the fresh job Stopped. -/
def JobTable.add_stopped_with_pgid (t : JobTable) (pid : Nat) (command : String)
    (pgid : Nat) : (Nat × Nat) × JobTable :=
  let ((id, pid), t') := t.add_with_pgid pid command pgid
  ((id, pid), t'.setStatus id JobStatus.stopped)

/-- Embedding of `JobTable::remove` (src/jobs.rs:121-123), table part. -/
def JobTable.remove (t : JobTable) (id : Nat) : JobTable :=
  { t with jobs := t.jobs.filter (fun kv => kv.1 ≠ id) }

/-- Embedding of `JobTable::reap` (src/jobs.rs:91-115): non-blocking poll
of every Running job; those whose child has finished are removed.
`finished` is the oracle for `child.try_wait()` returning `Ok(Some(_))`,
keyed by pid. -/
def JobTable.reap (t : JobTable) (finished : Nat → Bool) : JobTable :=
  { t with
    jobs := t.jobs.filter
      (fun kv => ¬ (kv.2.status = JobStatus.running ∧ finished kv.2.pid)) }

/-- Embedding of `JobTable::most_recent_id` (src/jobs.rs:134-136). -/
def JobTable.most_recent_id (t : JobTable) : Option Nat :=
  (t.jobs.map Prod.fst).max?

/-- Embedding of `JobTable::most_recent_stopped_id` (src/jobs.rs:140-146). -/
def JobTable.most_recent_stopped_id (t : JobTable) : Option Nat :=
  ((t.jobs.filter (fun kv => kv.2.status = JobStatus.stopped)).map Prod.fst).max?

/-- Embedding of `JobTable::running_ids` (src/jobs.rs:149-155). -/
def JobTable.running_ids (t : JobTable) : List Nat :=
  (t.jobs.filter (fun kv => kv.2.status = JobStatus.running)).map Prod.fst

/-- The ids currently bound in the table. -/
def JobTable.ids (t : JobTable) : List Nat :=
  t.jobs.map Prod.fst

/-! ### Job-table histories

The operations the shell performs on its job table over a session.  `reap`
carries the oracle for which children `try_wait` reports finished; status
updates model the `get_mut`-then-assign writes of `fg`/`bg`. -/

/-- One shell-side operation on the job table. -/
inductive JobOp where
  | add (pid pgid : Nat) (command : String)
  | addStopped (pid pgid : Nat) (command : String)
  | remove (id : Nat)
  | reap (finished : Nat → Bool)
  | setStatus (id : Nat) (status : JobStatus)

/-- Apply one operation. -/
def JobTable.applyOp (t : JobTable) : JobOp → JobTable
  | JobOp.add pid pgid command => (t.add_with_pgid pid command pgid).2
  | JobOp.addStopped pid pgid command => (t.add_stopped_with_pgid pid command pgid).2
  | JobOp.remove id => t.remove id
  | JobOp.reap finished => t.reap finished
  | JobOp.setStatus id status => t.setStatus id status

/-- The table reached from `JobTable.new` by a history of operations. -/
def JobTable.afterOps (ops : List JobOp) : JobTable :=
  ops.foldl JobTable.applyOp JobTable.new

/-- The job ids handed out by the `add` operations of a history, in
order (the first components of the `(id, pid)` pairs `add_with_pgid`
returned). -/
def assignedIds (ops : List JobOp) : List Nat :=
  go ops JobTable.new
where
  go : List JobOp → JobTable → List Nat
  | [], _ => []
  | op :: rest, t =>
    match op with
    | JobOp.add pid pgid command =>
      let ((id, _), t') := t.add_with_pgid pid command pgid
      id :: go rest t'
    | JobOp.addStopped pid pgid command =>
      let ((id, _), t') := t.add_stopped_with_pgid pid command pgid
      id :: go rest t'
    | _ => go rest (t.applyOp op)

/-! ## `src/executor.rs` — pipeline stage planning

`execute_pipeline` (src/executor.rs:49-319) first rejects `exit` anywhere
in a multi-stage pipeline, then walks the stages: a stage that resolves
with `stdout_redirected` set while not last is rejected; otherwise a
builtin stage runs synchronously (last) or on a worker thread (not last),
and an external stage is spawned.  `planPipeline` records that decision
for every stage of a multi-stage pipeline. -/

/-- Embedding of `BUILTINS` (src/builtins.rs:10-12). -/
def BUILTINS : List String :=
  ["cd", "pwd", "exit", "echo", "export", "unset", "type", "jobs", "fg", "bg",
   "wait", "help"]

/-- Embedding of `is_builtin` (src/builtins.rs:21-23). -/
def is_builtin (name : String) : Bool :=
  BUILTINS.contains name

/-- Embedding of `parser::Command` (post-expansion). -/
structure Command where
  program : String
  args : List String
  deriving Repr

/-- Embedding of `PipelineCommand` (src/executor.rs:14-18). -/
structure PipelineCommand where
  command : Command
  redirections : List Redirection
  deriving Repr

/-- What `execute_pipeline` decides to do with one stage of a multi-stage
pipeline. -/
inductive StagePlan where
  | builtinSync
  | builtinThread
  | external
  deriving DecidableEq, Repr

/-- The stage walk of `execute_pipeline` (src/executor.rs:96-319) for a
multi-stage pipeline, restricted to its control decisions: for stage
`idx` of `n`, the stdin default is the previous pipe (or inherit), the
stdout default is a fresh pipe writer unless the stage is last; the
stage's redirections are resolved over those defaults; a non-last stage
whose stdout was redirected is rejected; otherwise the stage is planned
as a synchronous builtin, a worker-thread builtin, or an external spawn. -/
def planStages (n : Nat) : Nat → List PipelineCommand → Except String (List StagePlan)
  | _, [] => Except.ok []
  | idx, segment :: rest =>
    let is_last := idx + 1 = n
    let defaults : RedirectionDefaults :=
      { stdin := if idx = 0 then InputHandle.inherit else InputHandle.pipe
        stdout := if is_last then OutputHandle.inherit else OutputHandle.pipe
        stderr := OutputHandle.inherit }
    match resolve_redirections segment.redirections defaults with
    | Except.error msg => Except.error msg
    | Except.ok resolved =>
      if ¬ is_last ∧ resolved.stdout_redirected then
        Except.error ("jsh: cannot redirect stdout of non-terminal pipeline command '"
          ++ segment.command.program ++ "'")
      else
        let plan :=
          if is_builtin segment.command.program then
            if is_last then StagePlan.builtinSync else StagePlan.builtinThread
          else StagePlan.external
        match planStages n (idx + 1) rest with
        | Except.ok plans => Except.ok (plan :: plans)
        | Except.error msg => Except.error msg

/-- Embedding of the validation-and-planning prefix of `execute_pipeline`
for a multi-stage pipeline (`commands.len() > 1`): the `exit` check of
src/executor.rs:70-73 followed by the stage walk. -/
def planPipeline (commands : List PipelineCommand) : Except String (List StagePlan) :=
  if commands.any (fun cmd => cmd.command.program = "exit") then
    Except.error "jsh: 'exit' is not supported in pipelines"
  else
    planStages commands.length 0 commands

/-- The stateful builtins the specification says must be rejected in
non-terminal pipeline positions (spec §4.E). -/
def statefulBuiltins : List String :=
  ["cd", "export", "unset", "fg", "bg"]

/-! ### Child accounting across the executor's exit paths -/

/-- How the executor disposed of one spawned child by the time
`execute_pipeline` returned. -/
inductive Disposal where
  | waited
  | transferred
  | dropped
  deriving DecidableEq, Repr

/-- How the foreground wait loop `wait_for_pipeline_process_group`
(src/executor.rs:909-958) ended: every child exited; a stop surfaced
after `reaped` children had already been reaped; or `waitpid` failed with
a non-EINTR error after `reaped` children had already been reaped
(the `Err` arm handled at src/executor.rs:371-375). -/
inductive PipelineOutcome where
  | exited
  | stoppedAfter (reaped : List Nat)
  | errAfter (reaped : List Nat)

/-- The stage indices at which `execute_pipeline` spawned a child: the
external stages, in order, among the first `upto` stages (`upto <
stages.length` models a setup/spawn failure at stage `upto`, after which
no further stage is processed). -/
def spawnedChildren (stages : List StagePlan) (upto : Nat) : List Nat :=
  ((List.range stages.length).take upto).filter
    (fun i => stages.getD i StagePlan.builtinSync = StagePlan.external)

/-- Child disposal on the exit paths of `execute_pipeline`
(src/executor.rs:321-397 plus the error paths that call `wait_children`,
src/executor.rs:607-611).  `children` is the list of spawned children in
spawn order (so `last_external_index` is the last position).  On an
aborted run (`aborted = true`, an error before all stages launched)
`wait_children` drains everything.  Otherwise: background transfers the
child at `last_external_index` to the job table and drops the rest;
a foreground pipeline whose wait loop saw every child exit has waited
them all; a foreground pipeline stopped mid-drain transfers the child at
`last_external_index` (the `swap_remove` at src/executor.rs:382-387),
counts the already-reaped children as waited, and drops the rest; and a
foreground pipeline whose wait loop failed (src/executor.rs:371-375)
returns `Continue(1)` without calling `wait_children` and without any
transfer — only the children the loop had already reaped were waited,
every other child (the last included) is dropped untracked when the
`children` vector goes out of scope. -/
def childDisposals (children : List Nat) (aborted : Bool) (background : Bool)
    (outcome : PipelineOutcome) : List (Nat × Disposal) :=
  if aborted then
    children.map (fun c => (c, Disposal.waited))
  else if background then
    children.map (fun c =>
      if children.getLast? = some c then (c, Disposal.transferred)
      else (c, Disposal.dropped))
  else
    match outcome with
    | PipelineOutcome.exited => children.map (fun c => (c, Disposal.waited))
    | PipelineOutcome.stoppedAfter reaped =>
      children.map (fun c =>
        if children.getLast? = some c then (c, Disposal.transferred)
        else if reaped.contains c then (c, Disposal.waited)
        else (c, Disposal.dropped))
    | PipelineOutcome.errAfter reaped =>
      children.map (fun c =>
        if reaped.contains c then (c, Disposal.waited)
        else (c, Disposal.dropped))

/-! ## `src/builtins.rs` — builtin dispatcher

The process environment and current directory are modelled explicitly;
the filesystem's answer to `set_current_dir` is an oracle
(`Filesystem.chdir old target = some newCwd` iff the change succeeds). -/

/-- The environment-variable map (`std::env::var` / `set_var` /
`remove_var`), as an association list. -/
def Env : Type := List (String × String)

/-- `std::env::var`. -/
def Env.var (env : Env) (key : String) : Option String :=
  (List.find? (fun kv => kv.1 = key) env).map Prod.snd

/-- `std::env::set_var`. -/
def Env.setVar (env : Env) (key value : String) : Env :=
  (key, value) :: List.filter (fun kv => kv.1 ≠ key) env

/-- `std::env::remove_var`. -/
def Env.removeVar (env : Env) (key : String) : Env :=
  List.filter (fun kv => kv.1 ≠ key) env

/-- Process-wide mutable shell state: the current directory as
`std::env::current_dir` reports it (`none` when that call fails), and the
environment. -/
structure ShellState where
  cwd : Option String
  env : Env

/-- Filesystem oracle for `std::env::set_current_dir`: `chdir old target`
is the resulting current directory on success, `none` on failure. -/
structure Filesystem where
  chdir : Option String → String → Option String

/-- Embedding of `builtin_cd` (src/builtins.rs:55-93): resolve the target
(`-` → `$OLDPWD`, error if unset; no argument → `$HOME`, else
`$USERPROFILE`, else `"."`), snapshot the current directory, attempt the
change; on failure return 1 leaving all state alone; on success set
`$OLDPWD` to the snapshotted directory (when there was one) and return 0. -/
def builtin_cd (fs : Filesystem) (args : List String) (st : ShellState) :
    Int × ShellState :=
  let target? : Option String :=
    match args.head? with
    | some dir =>
      if dir = "-" then st.env.var "OLDPWD"
      else some dir
    | none =>
      some (((st.env.var "HOME").orElse (fun _ => st.env.var "USERPROFILE")).getD ".")
  match target? with
  | none => (1, st)  -- "cd: OLDPWD not set"
  | some target =>
    let old_dir := st.cwd
    match fs.chdir st.cwd target with
    | none => (1, st)  -- "cd: {target}: {e}"
    | some newCwd =>
      let st := { st with cwd := some newCwd }
      match old_dir with
      | some cwd => (0, { st with env := st.env.setVar "OLDPWD" cwd })
      | none => (0, st)

/-- Embedding of `builtin_exit` (src/builtins.rs:108-119); `parse::<i32>`
is modelled by `String.toInt?` plus the i32 range check. -/
def builtin_exit (args : List String) : ExecutionAction :=
  match args.head? with
  | none => ExecutionAction.exit 0
  | some s =>
    match s.toInt? with
    | some code =>
      if -2147483648 ≤ code ∧ code ≤ 2147483647 then ExecutionAction.exit code
      else ExecutionAction.exit 2
    | none => ExecutionAction.exit 2

/-- Embedding of `builtin_export` (src/builtins.rs:126-137): each
`KEY=value` argument sets the variable; arguments without `=` only print
a usage message.  Always returns 0. -/
def builtin_export (args : List String) (env : Env) : Int × Env :=
  (0, args.foldl
    (fun env arg =>
      match arg.splitOn "=" with
      | key :: rest =>
        if rest.isEmpty then env
        else env.setVar key (String.intercalate "=" rest)
      | [] => env)
    env)

/-- Embedding of `builtin_unset` (src/builtins.rs:139-145). -/
def builtin_unset (args : List String) (env : Env) : Int × Env :=
  (0, args.foldl (fun env arg => env.removeVar arg) env)

/-- Embedding of `resolve_job_id` (src/builtins.rs:576-596): accept `%N`
or `N`, falling back to `default` when no argument is given. -/
def resolve_job_id (arg : Option String) (default : Option Nat) : Option Nat :=
  match arg with
  | some s => (s.dropWhile (fun c => c = '%')).toNat?
  | none => default

/-- Outcome oracle for the blocking OS waits the job-control builtins
perform (`wait_for_pid`, `child.wait`, `try_wait`, `kill(-pgid, CONT)`),
keyed by pid / pgid. -/
structure WaitOracle where
  /-- `job_control::wait_for_pid pid`: `none` models an `Err`,
  `some none` a Stopped outcome, `some (some code)` Exited(code). -/
  waitForPid : Nat → Option (Option Int)
  /-- `child.wait()` for the `wait` builtin: `none` models an `Err`. -/
  childWait : Nat → Option ExitStatusModel
  /-- `try_wait` reports the child finished (used by `reap`). -/
  tryWaitFinished : Nat → Bool
  /-- `send_continue_to_group pgid` succeeds. -/
  continueOk : Nat → Bool

/-- Embedding of `builtin_jobs` (src/builtins.rs:350-364), job-table
effect: reap, then list (listing mutates nothing). -/
def builtin_jobs (oracle : WaitOracle) (t : JobTable) : Int × JobTable :=
  (0, t.reap oracle.tryWaitFinished)

/-- Embedding of `builtin_fg` (src/builtins.rs:367-437), Unix path: pick
the job, mark it Running, continue its group, wait; a stop re-marks it
Stopped (exit 0), an exit removes it and propagates the code, a wait
error exits 1. -/
def builtin_fg (oracle : WaitOracle) (args : List String) (t : JobTable) :
    Int × JobTable :=
  match resolve_job_id args.head? t.most_recent_id with
  | none => (1, t)
  | some job_id =>
    match t.get job_id with
    | none => (1, t)
    | some job =>
      let t := t.setStatus job_id JobStatus.running
      match oracle.waitForPid job.pid with
      | none => (1, t)
      | some none => (0, t.setStatus job_id JobStatus.stopped)
      | some (some code) => (code, t.remove job_id)

/-- Embedding of `builtin_bg` (src/builtins.rs:463-496): require a
Stopped job, continue its group, mark it Running. -/
def builtin_bg (oracle : WaitOracle) (args : List String) (t : JobTable) :
    Int × JobTable :=
  match resolve_job_id args.head? t.most_recent_stopped_id with
  | none => (1, t)
  | some job_id =>
    match t.get job_id with
    | none => (1, t)
    | some job =>
      if job.status ≠ JobStatus.stopped then (1, t)
      else if ¬ oracle.continueOk job.pgid then (1, t)
      else (0, t.setStatus job_id JobStatus.running)

/-- Embedding of `wait_for_job` (src/builtins.rs:535-570): a missing job
or wait error fails; a non-Running job yields 0 untouched; otherwise wait
and remove. -/
def wait_for_job (oracle : WaitOracle) (job_id : Nat) (t : JobTable) :
    Option Int × JobTable :=
  match t.get job_id with
  | none => (none, t)
  | some job =>
    if job.status ≠ JobStatus.running then (some 0, t)
    else
      match oracle.childWait job.pid with
      | some status => (some (exit_code status), t.remove job_id)
      | none => (none, t)

/-- The per-id loop body of `builtin_wait`, threading
`(last_status, had_error)`. -/
def waitLoop (oracle : WaitOracle) (ids : List Nat)
    (acc : Int × Bool) (t : JobTable) : (Int × Bool) × JobTable :=
  match ids with
  | [] => (acc, t)
  | id :: rest =>
    match wait_for_job oracle id t with
    | (some status, t') => waitLoop oracle rest (status, acc.2) t'
    | (none, t') => waitLoop oracle rest (acc.1, true) t'

/-- Embedding of `builtin_wait` (src/builtins.rs:499-532): with no
arguments wait for every Running job; with arguments wait per parsed id
(an unparsable id is an error).  Exit code 1 if anything errored, else
the last waited status. -/
def builtin_wait (oracle : WaitOracle) (args : List String) (t : JobTable) :
    Int × JobTable :=
  let (acc, t) :=
    if args.isEmpty then
      waitLoop oracle t.running_ids (0, false) t
    else
      args.foldl
        (fun (acc_t : (Int × Bool) × JobTable) arg =>
          match (arg.dropWhile (fun c => c = '%')).toNat? with
          | some id =>
            match wait_for_job oracle id acc_t.2 with
            | (some status, t') => ((status, acc_t.1.2), t')
            | (none, t') => ((acc_t.1.1, true), t')
          | none => ((acc_t.1.1, true), acc_t.2))
        ((0, false), t)
  (if acc.2 then 1 else acc.1, t)

/-- Embedding of `BuiltinAction` (src/builtins.rs:14-18). -/
inductive BuiltinAction where
  | continue_ (code : Int)
  | exit (code : Int)
  deriving DecidableEq, Repr

/-- Oracle for the `PATH` search of `type` (src/builtins.rs:634-659). -/
structure PathOracle where
  findInPath : String → Option String

/-- Embedding of `builtin_pwd` (src/builtins.rs:95-106): 0 when
`current_dir` succeeds, 1 otherwise. -/
def builtin_pwd (st : ShellState) : Int :=
  match st.cwd with
  | some _ => 0
  | none => 1

/-- Embedding of `builtin_type` (src/builtins.rs:147-165): exit 1 iff
some argument is neither a builtin nor found on `PATH`. -/
def builtin_type (paths : PathOracle) (args : List String) : Int :=
  if args.all (fun arg => is_builtin arg ∨ (paths.findInPath arg).isSome) then 0
  else 1

/-- The `help` arguments `builtin_help` (src/builtins.rs:167-345) answers
with exit code 0. -/
def helpTopics : List String :=
  ["cd", "pwd", "echo", "export", "unset", "type", "exit", "help", "jobs",
   "fg", "bg", "wait", "variables", "redirection", "expansion", "quotes",
   "exit-codes"]

/-- Embedding of `builtin_help`'s exit code: 0 for no argument or a known
builtin/topic, 1 for anything else. -/
def builtin_help (args : List String) : Int :=
  match args.head? with
  | none => 0
  | some topic => if helpTopics.contains topic then 0 else 1

/-- Embedding of `builtins::execute` (src/builtins.rs:27-53): dispatch on
the program name.  Only `jobs`/`fg`/`bg`/`wait` receive the job table;
only `cd`/`export`/`unset` touch the environment or directory. -/
def builtinsExecute (fs : Filesystem) (paths : PathOracle) (oracle : WaitOracle)
    (program : String) (args : List String) (st : ShellState) (t : JobTable) :
    BuiltinAction × ShellState × JobTable :=
  if program = "cd" then
    let (code, st') := builtin_cd fs args st
    (BuiltinAction.continue_ code, st', t)
  else if program = "pwd" then
    (BuiltinAction.continue_ (builtin_pwd st), st, t)
  else if program = "exit" then
    match builtin_exit args with
    | ExecutionAction.exit code => (BuiltinAction.exit code, st, t)
    | ExecutionAction.continue_ code => (BuiltinAction.continue_ code, st, t)
  else if program = "echo" then
    (BuiltinAction.continue_ 0, st, t)
  else if program = "export" then
    let (code, env') := builtin_export args st.env
    (BuiltinAction.continue_ code, { st with env := env' }, t)
  else if program = "unset" then
    let (code, env') := builtin_unset args st.env
    (BuiltinAction.continue_ code, { st with env := env' }, t)
  else if program = "type" then
    (BuiltinAction.continue_ (builtin_type paths args), st, t)
  else if program = "jobs" then
    let (code, t') := builtin_jobs oracle t
    (BuiltinAction.continue_ code, st, t')
  else if program = "fg" then
    let (code, t') := builtin_fg oracle args t
    (BuiltinAction.continue_ code, st, t')
  else if program = "bg" then
    let (code, t') := builtin_bg oracle args t
    (BuiltinAction.continue_ code, st, t')
  else if program = "wait" then
    let (code, t') := builtin_wait oracle args t
    (BuiltinAction.continue_ code, st, t')
  else if program = "help" then
    (BuiltinAction.continue_ (builtin_help args), st, t)
  else
    (BuiltinAction.continue_ 1, st, t)  -- "jsh: unknown builtin"

/-- What `executor::execute` produced overall: the returned action, the
resulting shell state and job table, and whether a background-start
`[id] pid` line was printed. -/
structure ExecResult where
  action : ExecutionAction
  state : ShellState
  jobs : JobTable
  bgStartPrinted : Bool

/-- Embedding of `run_builtin` (src/executor.rs:616-682): resolve the
redirections over plain inherit defaults (failure → `Continue(1)`), run
the builtin with the real job table, lift its action.  No background
machinery is involved. -/
def run_builtin (fs : Filesystem) (paths : PathOracle) (oracle : WaitOracle)
    (cmd : Command) (redirections : List Redirection)
    (st : ShellState) (t : JobTable) : ExecResult :=
  match resolve_redirections redirections
      { stdin := InputHandle.inherit
        stdout := OutputHandle.inherit
        stderr := OutputHandle.inherit } with
  | Except.error _ =>
    { action := ExecutionAction.continue_ 1, state := st, jobs := t,
      bgStartPrinted := false }
  | Except.ok _ =>
    let (action, st', t') := builtinsExecute fs paths oracle cmd.program cmd.args st t
    { action :=
        match action with
        | BuiltinAction.continue_ code => ExecutionAction.continue_ code
        | BuiltinAction.exit code => ExecutionAction.exit code
      state := st', jobs := t', bgStartPrinted := false }

/-- Oracle for spawning one external command: the spawn either fails with
an `IoError` or yields a child with a pid, whose process group after the
`setpgid` handshake is `pgid`. -/
structure SpawnOracle where
  spawn : Option IoError
  pid : Nat
  pgid : Nat

/-- Embedding of `run_external` (src/executor.rs:688-799): resolve
redirections (failure → 1); spawn (failure → `command_error` code); then
either hand the child to the job table printing `[id] pid` (background)
or run the foreground wait protocol, where a stop transfers the child to
the job table as Stopped with exit 0. -/
def run_external (spawner : SpawnOracle) (oracle : WaitOracle)
    (cmd : Command) (redirections : List Redirection) (background : Bool)
    (t : JobTable) (command_text : String) : Int × JobTable × Bool :=
  match resolve_redirections redirections
      { stdin := InputHandle.inherit
        stdout := OutputHandle.inherit
        stderr := OutputHandle.inherit } with
  | Except.error _ => (1, t, false)
  | Except.ok _ =>
    match spawner.spawn with
    | some e => ((command_error cmd.program e).2, t, false)
    | none =>
      if background then
        let (_, t') := t.add_with_pgid spawner.pid command_text spawner.pgid
        (0, t', true)  -- println!("[{}] {}", id, pid)
      else
        match oracle.waitForPid spawner.pid with
        | none => (1, t, false)
        | some none =>
          let (_, t') := t.add_stopped_with_pgid spawner.pid command_text spawner.pgid
          (0, t', false)
        | some (some code) => (code, t, false)

/-- Embedding of `execute` (src/executor.rs:28-47): builtins are checked
first and always run in the foreground — the `background` flag is only
ever consulted on the external path. -/
def execute (fs : Filesystem) (paths : PathOracle) (oracle : WaitOracle)
    (spawner : SpawnOracle) (cmd : Command) (redirections : List Redirection)
    (background : Bool) (st : ShellState) (t : JobTable) (command_text : String) :
    ExecResult :=
  if is_builtin cmd.program then
    run_builtin fs paths oracle cmd redirections st t
  else
    let (code, t', printed) :=
      run_external spawner oracle cmd redirections background t command_text
    { action := ExecutionAction.continue_ code, state := st, jobs := t',
      bgStartPrinted := printed }

/-! ## General lemmas -/

theorem resolveLoop_append (L : List Redirection) (e : Redirection)
    (st : ResolvedRedirections) :
    resolveLoop (L ++ [e]) st =
      match resolveLoop L st with
      | Except.ok st' => applyRedirection st' e
      | Except.error msg => Except.error msg := by
  induction L generalizing st with
  | nil =>
    simp only [List.nil_append, resolveLoop]
    cases applyRedirection st e <;> rfl
  | cons r rest ih =>
    simp only [List.cons_append, resolveLoop]
    cases applyRedirection st r <;> simp [ih]

theorem applyRedirection_merge_stderr (st : ResolvedRedirections) :
    applyRedirection st ⟨2, RedirectTarget.fd 1⟩ =
      Except.ok { st with stderr := st.stdout.try_clone } := by
  simp [applyRedirection]

theorem applyRedirection_self_dup (st : ResolvedRedirections) (n : Int) :
    applyRedirection st ⟨n, RedirectTarget.fd n⟩ = Except.ok st := by
  simp [applyRedirection]

/-! ## Claim theorems -/

/-- Claim C5: the status codec maps a normal exit with code `c` to `c`, a
termination by signal `s` to `128 + s`, and every other wait status to
`1`. -/
theorem C5_exit_code_classification :
    (∀ c : Int, exit_code (ExitStatusModel.exited c) = c) ∧
    (∀ s : Int, exit_code (ExitStatusModel.signaled s) = 128 + s) ∧
    exit_code ExitStatusModel.other = 1 :=
  ⟨fun _ => rfl, fun _ => rfl, rfl⟩

/-- Claim C8: a spawn failure with a not-found error yields exit code 127
and a `command not found` message naming the program; a spawn failure of
any other kind yields exit code 126. -/
theorem C8_spawn_error_mapping (program : String) (e : IoError) :
    (e.kind = IoErrorKind.notFound →
      command_error program e = ("jsh: command not found: " ++ program, 127)) ∧
    (e.kind ≠ IoErrorKind.notFound → (command_error program e).2 = 126) := by
  constructor
  · intro h
    simp [command_error, h]
  · intro h
    simp [command_error, h]

/-- Witness for C8 at concrete errors: a not-found error for `python3`
maps to 127 with the message, a permission error maps to 126. -/
theorem C8_spawn_error_mapping_witness :
    command_error "python3" ⟨IoErrorKind.notFound, "No such file"⟩ =
      ("jsh: command not found: python3", 127) ∧
    (command_error "python3" ⟨IoErrorKind.permissionDenied, "Permission denied"⟩).2 = 126 :=
  ⟨(C8_spawn_error_mapping "python3" ⟨IoErrorKind.notFound, "No such file"⟩).1 rfl,
   (C8_spawn_error_mapping "python3" ⟨IoErrorKind.permissionDenied, "Permission denied"⟩).2
     (by decide)⟩

/-- Claim C3: in the chain loop a `Sequence` entry always runs, an `And`
entry runs iff the current `$?` is 0, an `Or` entry runs iff it is
non-zero; a skipped entry leaves `$?` and the output untouched, and a run
`Continue` entry replaces `$?` with its own code.  On the concrete chain
`false && echo skipped || echo ran` only `false` and `echo ran` run, the
output is `ran`, and the final `$?` is 0. -/
theorem C3_chain_connector_semantics :
    (∀ init : Int, shouldRun Connector.sequence init = true) ∧
    (∀ init : Int, shouldRun Connector.and init = decide (init = 0)) ∧
    (∀ init : Int, shouldRun Connector.or init = decide (init ≠ 0)) ∧
    (∀ (init : Int) (e : ChainEntry) (rest : List ChainEntry),
      shouldRun e.connector init = false →
      runChain init (e :: rest) = runChain init rest) ∧
    (∀ (init code : Int) (e : ChainEntry) (rest : List ChainEntry),
      shouldRun e.connector init = true →
      e.result = ExecutionAction.continue_ code →
      runChain init (e :: rest) =
        ((runChain code rest).1, e.output ++ (runChain code rest).2)) ∧
    runChain 0
      [⟨Connector.sequence, ExecutionAction.continue_ 1, []⟩,
       ⟨Connector.and, ExecutionAction.continue_ 0, ["skipped"]⟩,
       ⟨Connector.or, ExecutionAction.continue_ 0, ["ran"]⟩] = (0, ["ran"]) := by
  refine ⟨fun _ => rfl, fun _ => rfl, fun init => by simp [shouldRun], ?_, ?_, by rfl⟩
  · intro init e rest h
    simp [runChain, h]
  · intro init code e rest h hres
    simp [runChain, h, hres]

/-- Witness for C3: with `$? = 5`, an `And` entry is skipped leaving the
state alone, and with `$? = 0` a `Continue 7` entry runs and sets `$?`
to 7. -/
theorem C3_chain_connector_semantics_witness :
    runChain 5 [⟨Connector.and, ExecutionAction.continue_ 0, ["x"]⟩] = (5, []) ∧
    runChain 0 [⟨Connector.sequence, ExecutionAction.continue_ 7, ["y"]⟩] = (7, ["y"]) := by
  constructor
  · have h := C3_chain_connector_semantics.2.2.2.1 5
      ⟨Connector.and, ExecutionAction.continue_ 0, ["x"]⟩ [] (by decide)
    simpa [runChain] using h
  · have h := C3_chain_connector_semantics.2.2.2.2.1 0 7
      ⟨Connector.sequence, ExecutionAction.continue_ 7, ["y"]⟩ [] (by decide) rfl
    simpa [runChain] using h

/-- Claim C2: appending `2>&1` to any redirection list rebinds stderr to
whatever the fold's stdout is at that point (a duplicate of the current
stdout handle, not the original default); a self-duplication `n>&n` is a
no-op on the whole resolution; and concretely, after `> out.txt 2>&1`
stdout and stderr are the same file. -/
theorem C2_dup_semantics :
    (∀ (L : List Redirection) (D : RedirectionDefaults),
      resolve_redirections (L ++ [⟨2, RedirectTarget.fd 1⟩]) D =
        Except.map (fun r => { r with stderr := r.stdout.try_clone })
          (resolve_redirections L D)) ∧
    (∀ (L : List Redirection) (D : RedirectionDefaults) (n : Int),
      resolve_redirections (L ++ [⟨n, RedirectTarget.fd n⟩]) D =
        resolve_redirections L D) ∧
    resolve_redirections
      [⟨1, RedirectTarget.file "out.txt"⟩, ⟨2, RedirectTarget.fd 1⟩]
      ⟨InputHandle.inherit, OutputHandle.inherit, OutputHandle.inherit⟩ =
      Except.ok
        ⟨InputHandle.inherit, OutputHandle.file "out.txt" false,
         OutputHandle.file "out.txt" false, true⟩ := by
  refine ⟨?_, ?_, by rfl⟩
  · intro L D
    unfold resolve_redirections
    rw [resolveLoop_append]
    cases resolveLoop L _ with
    | ok r => simp [applyRedirection_merge_stderr, Except.map]
    | error msg => rfl
  · intro L D n
    unfold resolve_redirections
    rw [resolveLoop_append]
    cases resolveLoop L _ with
    | ok r => simp [applyRedirection_self_dup]
    | error msg => rfl

/-- Counterexample to claim C9 as stated: for the list `2>&1 > out.txt`
(duplicate first, then redirect stdout) over all-inherit defaults, the
first resolution leaves stderr inherited, but resolving the same list
again from the produced triple rebinds stderr to the file — the two
passes disagree, so resolution over a fresh list is not idempotent on the
triple. -/
theorem C9_idempotence_counterexample :
    resolve_redirections
      [⟨2, RedirectTarget.fd 1⟩, ⟨1, RedirectTarget.file "out.txt"⟩]
      ⟨InputHandle.inherit, OutputHandle.inherit, OutputHandle.inherit⟩ =
      Except.ok
        ⟨InputHandle.inherit, OutputHandle.file "out.txt" false,
         OutputHandle.inherit, true⟩ ∧
    resolve_redirections
      [⟨2, RedirectTarget.fd 1⟩, ⟨1, RedirectTarget.file "out.txt"⟩]
      (ResolvedRedirections.toDefaults
        ⟨InputHandle.inherit, OutputHandle.file "out.txt" false,
         OutputHandle.inherit, true⟩) =
      Except.ok
        ⟨InputHandle.inherit, OutputHandle.file "out.txt" false,
         OutputHandle.file "out.txt" false, true⟩ ∧
    (OutputHandle.file "out.txt" false ≠ OutputHandle.inherit) := by
  refine ⟨by rfl, by rfl, by decide⟩

/-- Claim C1 (code side): on the failing input `cd /tmp | echo DONE` the
pipeline executor does NOT reject the non-terminal stateful builtin `cd`;
it plans it to run on a worker thread and the pipeline proceeds — no
error is produced for any of the stateful builtins in non-terminal
position.  (The repository's own regression tests and `help` text demand
a rejection with a diagnostic, which no code in the executor emits.) -/
theorem C1_nonterminal_stateful_builtin_not_rejected :
    planPipeline
      [⟨⟨"cd", ["/tmp"]⟩, []⟩, ⟨⟨"echo", ["DONE"]⟩, []⟩] =
      Except.ok [StagePlan.builtinThread, StagePlan.builtinSync] ∧
    "cd" ∈ statefulBuiltins ∧
    planPipeline
      [⟨⟨"export", ["FOO=bar"]⟩, []⟩, ⟨⟨"echo", ["DONE"]⟩, []⟩] =
      Except.ok [StagePlan.builtinThread, StagePlan.builtinSync] ∧
    "export" ∈ statefulBuiltins := by
  refine ⟨by rfl, by decide, by rfl, by decide⟩

/-- Counterexample to claim C4 as stated: in the background pipeline
`sleep 1 | sleep 2 &` (two external stages, background), the executor
transfers only the last child to the job table and drops the first
spawned child untracked — it is neither waited nor transferred. -/
theorem C4_child_accounting_counterexample :
    childDisposals
      (spawnedChildren [StagePlan.external, StagePlan.external] 2)
      false true PipelineOutcome.exited =
      [(0, Disposal.dropped), (1, Disposal.transferred)] := by
  rfl

/-- A redirection list with no cross-fd duplication entry: every `Fd m`
target sits on fd `m` itself (no `2>&1` / `1>&2`). -/
def crossDupFree (L : List Redirection) : Bool :=
  L.all fun r =>
    match r.target with
    | RedirectTarget.fd m => m = r.fd
    | _ => true

theorem through_step {α : Type} {x₁ x₂ y₁ y₂ z₁ z₂ : α}
    (hstep : (y₁ = x₁ ∧ y₂ = x₂) ∨ y₁ = y₂)
    (hrest : (z₁ = y₁ ∧ z₂ = y₂) ∨ z₁ = z₂) :
    (z₁ = x₁ ∧ z₂ = x₂) ∨ z₁ = z₂ := by
  rcases hrest with ⟨h₁, h₂⟩ | h
  · rcases hstep with ⟨g₁, g₂⟩ | g
    · exact Or.inl ⟨h₁.trans g₁, h₂.trans g₂⟩
    · exact Or.inr (by rw [h₁, h₂, g])
  · exact Or.inr h

/-- For a cross-dup-free entry, applying it to two different states
either leaves a component untouched in both states, or sets it to the
same entry-determined value in both — and it succeeds from one state iff
from the other. -/
theorem applyRedirection_crossDupFree_step (e : Redirection)
    (he : (match e.target with
           | RedirectTarget.fd m => decide (m = e.fd)
           | _ => true) = true)
    (st₁ st₂ st₁' : ResolvedRedirections)
    (h₁ : applyRedirection st₁ e = Except.ok st₁') :
    ∃ st₂', applyRedirection st₂ e = Except.ok st₂' ∧
      ((st₁'.stdin = st₁.stdin ∧ st₂'.stdin = st₂.stdin) ∨ st₁'.stdin = st₂'.stdin) ∧
      ((st₁'.stdout = st₁.stdout ∧ st₂'.stdout = st₂.stdout) ∨ st₁'.stdout = st₂'.stdout) ∧
      ((st₁'.stderr = st₁.stderr ∧ st₂'.stderr = st₂.stderr) ∨ st₁'.stderr = st₂'.stderr) := by
  obtain ⟨efd, target⟩ := e
  cases target with
  | fd m =>
    simp only [decide_eq_true_eq] at he
    subst he
    rw [applyRedirection_self_dup] at h₁
    cases h₁
    exact ⟨st₂, applyRedirection_self_dup st₂ m, Or.inl ⟨rfl, rfl⟩,
      Or.inl ⟨rfl, rfl⟩, Or.inl ⟨rfl, rfl⟩⟩
  | file path =>
    simp only [applyRedirection] at h₁ ⊢
    split at h₁ <;> rename_i harm
    all_goals first
      | (cases h₁
         exact ⟨_, rfl, by simp⟩)
      | cases h₁
  | fileAppend path =>
    simp only [applyRedirection] at h₁ ⊢
    split at h₁ <;> rename_i harm
    all_goals first
      | (cases h₁
         exact ⟨_, rfl, by simp⟩)
      | cases h₁
  | fileRead path =>
    simp only [applyRedirection] at h₁ ⊢
    split at h₁ <;> rename_i harm
    all_goals first
      | (cases h₁
         exact ⟨_, rfl, by simp⟩)
      | cases h₁
  | hereString text =>
    simp only [applyRedirection] at h₁ ⊢
    split at h₁ <;> rename_i harm
    all_goals first
      | (cases h₁
         exact ⟨_, rfl, by simp⟩)
      | cases h₁

/-- Fold form of the step lemma: a cross-dup-free list resolved from two
start states yields, per component, either the same value or each start
state's own value passed through. -/
theorem resolveLoop_crossDupFree (L : List Redirection)
    (hL : crossDupFree L = true) :
    ∀ st₁ st₂ r₁, resolveLoop L st₁ = Except.ok r₁ →
    ∃ r₂, resolveLoop L st₂ = Except.ok r₂ ∧
      ((r₁.stdin = st₁.stdin ∧ r₂.stdin = st₂.stdin) ∨ r₁.stdin = r₂.stdin) ∧
      ((r₁.stdout = st₁.stdout ∧ r₂.stdout = st₂.stdout) ∨ r₁.stdout = r₂.stdout) ∧
      ((r₁.stderr = st₁.stderr ∧ r₂.stderr = st₂.stderr) ∨ r₁.stderr = r₂.stderr) := by
  induction L with
  | nil =>
    intro st₁ st₂ r₁ h
    cases h
    exact ⟨st₂, rfl, Or.inl ⟨rfl, rfl⟩, Or.inl ⟨rfl, rfl⟩, Or.inl ⟨rfl, rfl⟩⟩
  | cons e rest ih =>
    intro st₁ st₂ r₁ h
    rw [crossDupFree, List.all_cons, Bool.and_eq_true] at hL
    obtain ⟨he, hrest⟩ := hL
    rw [resolveLoop] at h
    cases happ₁ : applyRedirection st₁ e with
    | error msg => rw [happ₁] at h; cases h
    | ok st₁' =>
      rw [happ₁] at h
      obtain ⟨st₂', happ₂, hin, hout, herr⟩ :=
        applyRedirection_crossDupFree_step e he st₁ st₂ st₁' happ₁
      obtain ⟨r₂, hres₂, hin', hout', herr'⟩ := ih hrest st₁' st₂' r₁ h
      refine ⟨r₂, ?_, through_step hin hin', through_step hout hout',
        through_step herr herr'⟩
      rw [resolveLoop, happ₂]
      exact hres₂

/-- Claim C9 amended: for every redirection list with no cross-fd
duplication entry (no `2>&1` / `1>&2` except self-duplications), if
resolution over some defaults succeeds, resolving the list again from
the produced stdin/stdout/stderr triple succeeds and reproduces exactly
that triple. -/
theorem C9_idempotence_amended (L : List Redirection) (D : RedirectionDefaults)
    (r : ResolvedRedirections) (hfree : crossDupFree L = true)
    (h : resolve_redirections L D = Except.ok r) :
    ∃ r₂, resolve_redirections L r.toDefaults = Except.ok r₂ ∧
      r₂.stdin = r.stdin ∧ r₂.stdout = r.stdout ∧ r₂.stderr = r.stderr := by
  unfold resolve_redirections at h ⊢
  obtain ⟨r₂, hres₂, hin, hout, herr⟩ :=
    resolveLoop_crossDupFree L hfree _
      { stdin := r.toDefaults.stdin, stdout := r.toDefaults.stdout,
        stderr := r.toDefaults.stderr, stdout_redirected := false } r h
  refine ⟨r₂, hres₂, ?_, ?_, ?_⟩
  · rcases hin with ⟨h₁, h₂⟩ | h' <;> simp_all [ResolvedRedirections.toDefaults]
  · rcases hout with ⟨h₁, h₂⟩ | h' <;> simp_all [ResolvedRedirections.toDefaults]
  · rcases herr with ⟨h₁, h₂⟩ | h' <;> simp_all [ResolvedRedirections.toDefaults]

/-- Witness for the amended C9 at a concrete input: resolving
`> out.txt < in.txt` twice (second time from the produced triple)
reproduces the triple `(file in.txt, file out.txt, inherit)`. -/
theorem C9_idempotence_amended_witness :
    ∃ r₂, resolve_redirections
      [⟨1, RedirectTarget.file "out.txt"⟩, ⟨0, RedirectTarget.fileRead "in.txt"⟩]
      (ResolvedRedirections.toDefaults
        ⟨InputHandle.file "in.txt", OutputHandle.file "out.txt" false,
         OutputHandle.inherit, true⟩) = Except.ok r₂ ∧
      r₂.stdin = InputHandle.file "in.txt" ∧
      r₂.stdout = OutputHandle.file "out.txt" false ∧
      r₂.stderr = OutputHandle.inherit :=
  C9_idempotence_amended
    [⟨1, RedirectTarget.file "out.txt"⟩, ⟨0, RedirectTarget.fileRead "in.txt"⟩]
    ⟨InputHandle.inherit, OutputHandle.inherit, OutputHandle.inherit⟩
    ⟨InputHandle.file "in.txt", OutputHandle.file "out.txt" false,
     OutputHandle.inherit, true⟩
    (by decide) (by rfl)

/-- Claim C4 amended: every spawned child receives exactly one disposal;
on every pre-launch error path (resolve/pipe/spawn failure, which calls
`wait_children`) and on the foreground path in which the whole pipeline
exited, every spawned child is waited; but on the background path only
the last spawned child is transferred to the job table and every other
child is dropped untracked; on the foreground stopped path the last
spawned child is transferred, already-reaped children count as waited,
and the rest are dropped untracked; and on the foreground wait-error
path (the executor returns exit 1 without `wait_children` and without
any transfer) only the already-reaped children were waited and every
other child — the last included — is dropped untracked. -/
theorem C4_child_accounting_amended (stages : List StagePlan) (upto : Nat)
    (aborted background : Bool) (outcome : PipelineOutcome) :
    ((childDisposals (spawnedChildren stages upto) aborted background outcome).map
        Prod.fst = spawnedChildren stages upto) ∧
    (∀ cd ∈ childDisposals (spawnedChildren stages upto) true background outcome,
      cd.2 = Disposal.waited) ∧
    (∀ cd ∈ childDisposals (spawnedChildren stages upto) false false
        PipelineOutcome.exited, cd.2 = Disposal.waited) ∧
    (∀ cd ∈ childDisposals (spawnedChildren stages upto) false true outcome,
      ((spawnedChildren stages upto).getLast? = some cd.1 →
        cd.2 = Disposal.transferred) ∧
      ((spawnedChildren stages upto).getLast? ≠ some cd.1 →
        cd.2 = Disposal.dropped)) ∧
    (∀ (reaped : List Nat),
      ∀ cd ∈ childDisposals (spawnedChildren stages upto) false false
          (PipelineOutcome.stoppedAfter reaped),
      ((spawnedChildren stages upto).getLast? = some cd.1 →
        cd.2 = Disposal.transferred) ∧
      ((spawnedChildren stages upto).getLast? ≠ some cd.1 →
        cd.1 ∈ reaped → cd.2 = Disposal.waited) ∧
      ((spawnedChildren stages upto).getLast? ≠ some cd.1 →
        cd.1 ∉ reaped → cd.2 = Disposal.dropped)) ∧
    (∀ (reaped : List Nat),
      ∀ cd ∈ childDisposals (spawnedChildren stages upto) false false
          (PipelineOutcome.errAfter reaped),
      cd.2 ≠ Disposal.transferred ∧
      (cd.1 ∈ reaped → cd.2 = Disposal.waited) ∧
      (cd.1 ∉ reaped → cd.2 = Disposal.dropped)) := by
  have hmap : ∀ (f : Nat → Nat × Disposal), (∀ c, (f c).1 = c) →
      ∀ l : List Nat, List.map (Prod.fst ∘ f) l = l := by
    intro f hf l
    induction l with
    | nil => rfl
    | cons a tl ih => simp [Function.comp, hf, ih]
  refine ⟨?_, ?_, ?_, ?_, ?_, ?_⟩
  · cases aborted with
    | true => simpa [childDisposals] using hmap _ (fun c => rfl) _
    | false =>
      cases background with
      | true =>
        simp only [childDisposals, Bool.false_eq_true, if_false, if_true,
          List.map_map]
        exact hmap _
          (fun c => by
            by_cases h : (spawnedChildren stages upto).getLast? = some c <;>
              simp [h]) _
      | false =>
        cases outcome with
        | exited => simpa [childDisposals] using hmap _ (fun c => rfl) _
        | stoppedAfter reaped =>
          simp only [childDisposals, Bool.false_eq_true, if_false, List.map_map]
          exact hmap _
            (fun c => by
              by_cases h : (spawnedChildren stages upto).getLast? = some c
              · simp [h]
              · by_cases h2 : c ∈ reaped <;> simp [h, h2]) _
        | errAfter reaped =>
          simp only [childDisposals, Bool.false_eq_true, if_false, List.map_map]
          exact hmap _
            (fun c => by by_cases h2 : c ∈ reaped <;> simp [h2]) _
  · intro cd hcd
    simp [childDisposals] at hcd
    obtain ⟨c, _, hc⟩ := hcd
    rw [← hc]
  · intro cd hcd
    simp [childDisposals] at hcd
    obtain ⟨c, _, hc⟩ := hcd
    rw [← hc]
  · intro cd hcd
    simp [childDisposals] at hcd
    obtain ⟨c, _, hc⟩ := hcd
    have h1 : cd.1 = c := by rw [← hc]; split <;> rfl
    constructor
    · intro hlast
      rw [h1] at hlast
      rw [← hc, if_pos hlast]
    · intro hlast
      rw [h1] at hlast
      rw [← hc, if_neg hlast]
  · intro reaped cd hcd
    simp [childDisposals] at hcd
    obtain ⟨c, _, hc⟩ := hcd
    have h1 : cd.1 = c := by
      rw [← hc]; split <;> first | rfl | (split <;> rfl)
    refine ⟨?_, ?_, ?_⟩
    · intro hlast
      rw [h1] at hlast
      rw [← hc, if_pos hlast]
    · intro hlast hreap
      rw [h1] at hlast
      rw [h1] at hreap
      rw [← hc, if_neg hlast, if_pos hreap]
    · intro hlast hreap
      rw [h1] at hlast
      rw [h1] at hreap
      rw [← hc, if_neg hlast, if_neg hreap]
  · intro reaped cd hcd
    simp [childDisposals] at hcd
    obtain ⟨c, _, hc⟩ := hcd
    have h1 : cd.1 = c := by rw [← hc]; split <;> rfl
    refine ⟨?_, ?_, ?_⟩
    · rw [← hc]
      split <;> simp
    · intro hreap
      rw [h1] at hreap
      rw [← hc, if_pos hreap]
    · intro hreap
      rw [h1] at hreap
      rw [← hc, if_neg hreap]

/-- Witness for the amended C4 at concrete inputs: on the background
pipeline `sleep 1 | sleep 2 &` the first spawned child is dropped and
the last is transferred; on a foreground two-stage pipeline whose wait
loop failed after reaping child 0, child 0 was waited and child 1 — the
last — is dropped untracked. -/
theorem C4_child_accounting_amended_witness :
    ((1 : Nat), Disposal.transferred).2 = Disposal.transferred ∧
    ((0 : Nat), Disposal.dropped).2 = Disposal.dropped ∧
    ((0 : Nat), Disposal.waited).2 = Disposal.waited ∧
    ((1 : Nat), Disposal.dropped).2 = Disposal.dropped := by
  have h := (C4_child_accounting_amended [StagePlan.external, StagePlan.external]
    2 false true PipelineOutcome.exited).2.2.2.1
  have herr := (C4_child_accounting_amended [StagePlan.external, StagePlan.external]
    2 false false (PipelineOutcome.errAfter [0])).2.2.2.2.2
  refine ⟨?_, ?_, ?_, ?_⟩
  · exact (h (1, Disposal.transferred) (by decide)).1 (by decide)
  · exact (h (0, Disposal.dropped) (by decide)).2 (by decide)
  · exact (herr [0] (0, Disposal.waited) (by decide)).2.1 (by decide)
  · exact (herr [0] (1, Disposal.dropped) (by decide)).2.2 (by decide)

theorem Env.var_setVar (env : Env) (k v : String) :
    (env.setVar k v).var k = some v := by
  simp [Env.var, Env.setVar, List.find?]

/-- Case analysis of `builtin_cd`: it either fails returning exit code 1
with the state untouched, or succeeds returning 0 with the directory
changed and `$OLDPWD` set to the previous directory when one was known. -/
theorem builtin_cd_cases (fs : Filesystem) (args : List String) (st : ShellState) :
    builtin_cd fs args st = (1, st) ∨
    (∃ newCwd,
      builtin_cd fs args st =
        (0,
          match st.cwd with
          | some cwd =>
            { cwd := some newCwd, env := st.env.setVar "OLDPWD" cwd }
          | none => { cwd := some newCwd, env := st.env })) := by
  simp only [builtin_cd]
  split
  · exact Or.inl rfl
  · split
    · exact Or.inl rfl
    · rename_i target newCwd hch
      refine Or.inr ⟨newCwd, ?_⟩
      cases h : st.cwd <;> simp [h]

/-- Claim C6: whenever `cd` succeeds (exit code 0) and the shell knew its
working directory `d` beforehand, `$OLDPWD` is `d` afterwards; whenever
`cd` does not succeed, it returns exit code 1 and leaves the whole shell
state (in particular `$OLDPWD`) unchanged. -/
theorem C6_cd_oldpwd (fs : Filesystem) (args : List String) (st : ShellState) :
    ((builtin_cd fs args st).1 = 0 →
      ∀ d, st.cwd = some d →
        ((builtin_cd fs args st).2).env.var "OLDPWD" = some d) ∧
    ((builtin_cd fs args st).1 ≠ 0 →
      (builtin_cd fs args st).1 = 1 ∧ (builtin_cd fs args st).2 = st) := by
  rcases builtin_cd_cases fs args st with h | ⟨newCwd, h⟩
  · rw [h]
    exact ⟨fun h0 => by simp at h0, fun _ => ⟨rfl, rfl⟩⟩
  · rw [h]
    constructor
    · intro _ d hd
      rw [hd]
      simp only []
      exact Env.var_setVar st.env "OLDPWD" d
    · intro h0
      exact absurd rfl h0

/-- Example filesystem for the C6 witness: only `/tmp` exists. -/
def fsExample : Filesystem :=
  ⟨fun _ target => if target = "/tmp" then some "/tmp" else none⟩

/-- Example shell state for the C6 witness. -/
def stExample : ShellState :=
  { cwd := some "/home/james", env := [] }

/-- Witness for C6 at a concrete input: `cd /tmp` from `/home/james`
succeeds and leaves `$OLDPWD = /home/james`; `cd /nope` fails with exit
code 1 and an unchanged state. -/
theorem C6_cd_oldpwd_witness :
    ((builtin_cd fsExample ["/tmp"] stExample).2).env.var "OLDPWD" =
      some "/home/james" ∧
    (builtin_cd fsExample ["/nope"] stExample).1 = 1 ∧
    (builtin_cd fsExample ["/nope"] stExample).2 = stExample :=
  ⟨(C6_cd_oldpwd fsExample ["/tmp"] stExample).1 rfl "/home/james" rfl,
   (C6_cd_oldpwd fsExample ["/nope"] stExample).2 (by decide)⟩

/-- Whether an operation inserts a new job. -/
def JobOp.isAdd : JobOp → Bool
  | JobOp.add _ _ _ => true
  | JobOp.addStopped _ _ _ => true
  | _ => false

/-- Number of insertions in a history. -/
def numAdds (ops : List JobOp) : Nat :=
  (ops.filter JobOp.isAdd).length

theorem applyOp_next_id (t : JobTable) (op : JobOp) :
    (t.applyOp op).next_id = t.next_id + (if op.isAdd then 1 else 0) := by
  cases op <;>
    simp [JobTable.applyOp, JobTable.add_with_pgid, JobTable.add_stopped_with_pgid,
      JobTable.setStatus, JobTable.remove, JobTable.reap, JobTable.insert,
      JobOp.isAdd]

theorem foldl_applyOp_next_id (ops : List JobOp) (t : JobTable) :
    (ops.foldl JobTable.applyOp t).next_id = t.next_id + numAdds ops := by
  induction ops generalizing t with
  | nil => simp [numAdds]
  | cons op rest ih =>
    rw [List.foldl_cons, ih, applyOp_next_id]
    simp only [numAdds, List.filter]
    cases h : op.isAdd with
    | false => simp [h]
    | true => simp [h]; omega

theorem assignedIds_go_eq (ops : List JobOp) (t : JobTable) :
    assignedIds.go ops t = List.range' t.next_id (numAdds ops) := by
  induction ops generalizing t with
  | nil => simp [assignedIds.go, numAdds]
  | cons op rest ih =>
    cases op with
    | add pid pgid cmd =>
      simp only [assignedIds.go, JobTable.add_with_pgid, ih]
      simp [numAdds, List.filter, JobOp.isAdd, List.range'_succ]
    | addStopped pid pgid cmd =>
      simp only [assignedIds.go, JobTable.add_stopped_with_pgid,
        JobTable.add_with_pgid, ih, JobTable.setStatus]
      simp [numAdds, List.filter, JobOp.isAdd, List.range'_succ]
    | remove id =>
      simp only [assignedIds.go, ih, JobTable.applyOp]
      simp [numAdds, List.filter, JobOp.isAdd, JobTable.remove]
    | reap finished =>
      simp only [assignedIds.go, ih, JobTable.applyOp]
      simp [numAdds, List.filter, JobOp.isAdd, JobTable.reap]
    | setStatus id status =>
      simp only [assignedIds.go, ih, JobTable.applyOp]
      simp [numAdds, List.filter, JobOp.isAdd, JobTable.setStatus]

theorem ids_setStatus (t : JobTable) (id : Nat) (s : JobStatus) :
    (t.setStatus id s).ids = t.ids := by
  simp only [JobTable.setStatus, JobTable.ids, List.map_map]
  apply List.map_congr_left
  intro kv _
  by_cases h : kv.1 = id <;> simp [h]

theorem mem_ids_filter {t : JobTable} {p : Nat × Job → Bool} {x : Nat}
    (h : x ∈ ((t.jobs.filter p).map Prod.fst)) : x ∈ t.ids := by
  simp only [List.mem_map] at h
  obtain ⟨kv, hkv, hx⟩ := h
  exact List.mem_map.mpr ⟨kv, List.mem_of_mem_filter hkv, hx⟩

theorem applyOp_ids_bound (t : JobTable) (op : JobOp)
    (h : ∀ id ∈ t.ids, id < t.next_id) :
    ∀ id ∈ (t.applyOp op).ids, id < (t.applyOp op).next_id := by
  cases op with
  | add pid pgid cmd =>
    intro id hid
    simp only [JobTable.applyOp, JobTable.add_with_pgid, JobTable.insert,
      JobTable.ids, List.map_cons, List.mem_cons] at hid ⊢
    rcases hid with hid | hid
    · omega
    · have := h id (mem_ids_filter hid)
      omega
  | addStopped pid pgid cmd =>
    intro id hid
    simp only [JobTable.applyOp, JobTable.add_stopped_with_pgid,
      JobTable.add_with_pgid] at hid ⊢
    rw [ids_setStatus] at hid
    simp only [JobTable.insert, JobTable.ids, List.map_cons,
      List.mem_cons] at hid
    simp only [JobTable.setStatus]
    rcases hid with hid | hid
    · omega
    · have := h id (mem_ids_filter hid)
      omega
  | remove rid =>
    intro id hid
    simp only [JobTable.applyOp, JobTable.remove, JobTable.ids] at hid ⊢
    exact h id (mem_ids_filter hid)
  | reap finished =>
    intro id hid
    simp only [JobTable.applyOp, JobTable.reap, JobTable.ids] at hid ⊢
    exact h id (mem_ids_filter hid)
  | setStatus sid status =>
    intro id hid
    simp only [JobTable.applyOp] at hid ⊢
    rw [ids_setStatus] at hid
    simp only [JobTable.setStatus]
    exact h id hid

theorem afterOps_ids_bound (ops : List JobOp) :
    ∀ id ∈ (JobTable.afterOps ops).ids, id < (JobTable.afterOps ops).next_id := by
  suffices h : ∀ t : JobTable, (∀ id ∈ t.ids, id < t.next_id) →
      ∀ id ∈ (ops.foldl JobTable.applyOp t).ids,
        id < (ops.foldl JobTable.applyOp t).next_id by
    exact h JobTable.new (by intro id hid; simp [JobTable.new, JobTable.ids] at hid)
  induction ops with
  | nil => intro t ht; simpa using ht
  | cons op rest ih =>
    intro t ht
    rw [List.foldl_cons]
    exact ih _ (applyOp_ids_bound t op ht)

/-- Claim C7: over any history of job-table operations the `add`
operations hand out exactly the ids `1, 2, 3, …` in order (monotone,
starting at 1); one further insertion receives an id strictly greater
than every previously assigned id; and that id is not currently bound in
the table (no reuse while the table still holds a job). -/
theorem C7_job_id_discipline (ops : List JobOp) (pid pgid : Nat) (cmd : String) :
    assignedIds ops = List.range' 1 (numAdds ops) ∧
    (∀ j ∈ assignedIds ops,
      j < (((JobTable.afterOps ops).add_with_pgid pid cmd pgid).1).1) ∧
    (((JobTable.afterOps ops).add_with_pgid pid cmd pgid).1).1 ∉
      (JobTable.afterOps ops).ids := by
  have hassigned : assignedIds ops = List.range' 1 (numAdds ops) := by
    rw [assignedIds, assignedIds_go_eq]; rfl
  have hnext : (JobTable.afterOps ops).next_id = 1 + numAdds ops :=
    foldl_applyOp_next_id ops JobTable.new
  have hid : (((JobTable.afterOps ops).add_with_pgid pid cmd pgid).1).1 =
      (JobTable.afterOps ops).next_id := rfl
  refine ⟨hassigned, ?_, ?_⟩
  · intro j hj
    rw [hassigned] at hj
    rw [hid, hnext]
    have := List.mem_range'_1.mp hj
    omega
  · rw [hid]
    intro hmem
    exact absurd (afterOps_ids_bound ops _ hmem) (by omega)

/-- Witness for C7 on a concrete history: after one `add` (which got
id 1), a further insertion gets id 2, which is greater than 1 and not in
the table. -/
theorem C7_job_id_discipline_witness :
    assignedIds [JobOp.add 100 100 "sleep 5"] = [1] ∧
    (1 : Nat) < 2 ∧
    (2 : Nat) ∉ (JobTable.afterOps [JobOp.add 100 100 "sleep 5"]).ids := by
  have h := C7_job_id_discipline [JobOp.add 100 100 "sleep 5"] 101 101 "sleep 7"
  refine ⟨by simpa using h.1, h.2.1 1 (by simp [h.1]; decide), ?_⟩
  exact h.2.2

theorem mem_ids_remove {t : JobTable} {id x : Nat}
    (h : x ∈ (t.remove id).ids) : x ∈ t.ids :=
  mem_ids_filter h

theorem mem_ids_reap {t : JobTable} {f : Nat → Bool} {x : Nat}
    (h : x ∈ (t.reap f).ids) : x ∈ t.ids :=
  mem_ids_filter h

theorem mem_ids_setStatus {t : JobTable} {id : Nat} {s : JobStatus} {x : Nat}
    (h : x ∈ (t.setStatus id s).ids) : x ∈ t.ids := by
  rwa [ids_setStatus] at h

theorem mem_ids_builtin_fg {o : WaitOracle} {args : List String} {t : JobTable}
    {x : Nat} (h : x ∈ ((builtin_fg o args t).2).ids) : x ∈ t.ids := by
  unfold builtin_fg at h
  split at h
  · exact h
  · split at h
    · exact h
    · split at h
      · exact mem_ids_setStatus h
      · exact mem_ids_setStatus (mem_ids_setStatus h)
      · exact mem_ids_setStatus (mem_ids_remove h)

theorem mem_ids_builtin_bg {o : WaitOracle} {args : List String} {t : JobTable}
    {x : Nat} (h : x ∈ ((builtin_bg o args t).2).ids) : x ∈ t.ids := by
  unfold builtin_bg at h
  split at h
  · exact h
  · split at h
    · exact h
    · split at h
      · exact h
      · split at h
        · exact h
        · exact mem_ids_setStatus h

theorem mem_ids_wait_for_job {o : WaitOracle} {id : Nat} {t : JobTable}
    {x : Nat} (h : x ∈ ((wait_for_job o id t).2).ids) : x ∈ t.ids := by
  unfold wait_for_job at h
  split at h
  · exact h
  · split at h
    · exact h
    · split at h
      · exact mem_ids_remove h
      · exact h

theorem mem_ids_waitLoop {o : WaitOracle} (ids : List Nat) (acc : Int × Bool)
    (t : JobTable) {x : Nat} (h : x ∈ ((waitLoop o ids acc t).2).ids) :
    x ∈ t.ids := by
  induction ids generalizing acc t with
  | nil => exact h
  | cons id rest ih =>
    unfold waitLoop at h
    split at h
    · rename_i status t' heq
      have hx : x ∈ ((wait_for_job o id t).2).ids := by
        rw [heq]
        exact ih _ _ h
      exact mem_ids_wait_for_job hx
    · rename_i t' heq
      have hx : x ∈ ((wait_for_job o id t).2).ids := by
        rw [heq]
        exact ih _ _ h
      exact mem_ids_wait_for_job hx

/-- The body of `builtin_wait`'s explicit-argument loop. -/
def waitArgsStep (o : WaitOracle) (acc_t : (Int × Bool) × JobTable)
    (arg : String) : (Int × Bool) × JobTable :=
  match (arg.dropWhile (fun c => c = '%')).toNat? with
  | some id =>
    match wait_for_job o id acc_t.2 with
    | (some status, t') => ((status, acc_t.1.2), t')
    | (none, t') => ((acc_t.1.1, true), t')
  | none => ((acc_t.1.1, true), acc_t.2)

theorem mem_ids_waitArgsStep {o : WaitOracle} {acc_t : (Int × Bool) × JobTable}
    {arg : String} {x : Nat}
    (h : x ∈ ((waitArgsStep o acc_t arg).2).ids) : x ∈ (acc_t.2).ids := by
  unfold waitArgsStep at h
  split at h
  · rename_i id heq0
    split at h
    · rename_i status t' heq
      have hx : x ∈ ((wait_for_job o id acc_t.2).2).ids := by
        rw [heq]
        exact h
      exact mem_ids_wait_for_job hx
    · rename_i t' heq
      have hx : x ∈ ((wait_for_job o id acc_t.2).2).ids := by
        rw [heq]
        exact h
      exact mem_ids_wait_for_job hx
  · exact h

theorem mem_ids_waitArgsFold {o : WaitOracle} (as : List String) :
    ∀ (acc_t : (Int × Bool) × JobTable) {x : Nat},
      x ∈ ((as.foldl (waitArgsStep o) acc_t).2).ids → x ∈ (acc_t.2).ids := by
  induction as with
  | nil => intro acc_t x hx; exact hx
  | cons a rest ih =>
    intro acc_t x hx
    rw [List.foldl_cons] at hx
    exact mem_ids_waitArgsStep (ih _ hx)

theorem builtin_wait_eq (o : WaitOracle) (args : List String) (t : JobTable) :
    builtin_wait o args t =
      (let acc_t :=
        if args.isEmpty then waitLoop o t.running_ids (0, false) t
        else args.foldl (waitArgsStep o) ((0, false), t)
       (if acc_t.1.2 then 1 else acc_t.1.1, acc_t.2)) := by
  rfl

theorem mem_ids_builtin_wait {o : WaitOracle} {args : List String}
    {t : JobTable} {x : Nat} (h : x ∈ ((builtin_wait o args t).2).ids) :
    x ∈ t.ids := by
  rw [builtin_wait_eq] at h
  by_cases he : args.isEmpty
  · rw [if_pos he] at h
    exact mem_ids_waitLoop _ _ _ h
  · rw [if_neg he] at h
    exact mem_ids_waitArgsFold args _ h

theorem mem_ids_builtinsExecute {fs : Filesystem} {paths : PathOracle}
    {o : WaitOracle} {program : String} {args : List String} {st : ShellState}
    {t : JobTable} {x : Nat}
    (h : x ∈ ((builtinsExecute fs paths o program args st t).2.2).ids) :
    x ∈ t.ids := by
  by_cases h1 : program = "cd"
  · subst h1; exact h
  by_cases h2 : program = "pwd"
  · subst h2; exact h
  by_cases h3 : program = "exit"
  · subst h3
    revert h
    show x ∈ ((match builtin_exit args with
      | ExecutionAction.exit code => (BuiltinAction.exit code, st, t)
      | ExecutionAction.continue_ code =>
        (BuiltinAction.continue_ code, st, t)).2.2).ids → x ∈ t.ids
    cases builtin_exit args <;> exact id
  by_cases h4 : program = "echo"
  · subst h4; exact h
  by_cases h5 : program = "export"
  · subst h5; exact h
  by_cases h6 : program = "unset"
  · subst h6; exact h
  by_cases h7 : program = "type"
  · subst h7; exact h
  by_cases h8 : program = "jobs"
  · subst h8
    exact mem_ids_reap (show x ∈ ((builtin_jobs o t).2).ids from h)
  by_cases h9 : program = "fg"
  · subst h9
    exact mem_ids_builtin_fg (show x ∈ ((builtin_fg o args t).2).ids from h)
  by_cases h10 : program = "bg"
  · subst h10
    exact mem_ids_builtin_bg (show x ∈ ((builtin_bg o args t).2).ids from h)
  by_cases h11 : program = "wait"
  · subst h11
    exact mem_ids_builtin_wait (show x ∈ ((builtin_wait o args t).2).ids from h)
  by_cases h12 : program = "help"
  · subst h12; exact h
  · have ht : (builtinsExecute fs paths o program args st t).2.2 = t := by
      simp only [builtinsExecute, if_neg h1, if_neg h2, if_neg h3, if_neg h4,
        if_neg h5, if_neg h6, if_neg h7, if_neg h8, if_neg h9, if_neg h10,
        if_neg h11, if_neg h12]
    rw [ht] at h
    exact h

/-- Claim C10: for a single command whose program is a builtin, the
trailing-`&` background flag is ignored — executing with
`background = true` is identical to executing with `background = false`
(the builtin runs synchronously through `run_builtin`), no background
start line `[id] pid` is printed, and no job is added to the job table
(its set of ids can only shrink, e.g. through `fg`/`wait` removals). -/
theorem C10_builtin_background_ignored (fs : Filesystem) (paths : PathOracle)
    (oracle : WaitOracle) (spawner : SpawnOracle) (cmd : Command)
    (redirections : List Redirection) (st : ShellState) (t : JobTable)
    (command_text : String) (h : is_builtin cmd.program = true) :
    execute fs paths oracle spawner cmd redirections true st t command_text =
      execute fs paths oracle spawner cmd redirections false st t command_text ∧
    (execute fs paths oracle spawner cmd redirections true st t
      command_text).bgStartPrinted = false ∧
    (∀ id ∈ ((execute fs paths oracle spawner cmd redirections true st t
      command_text).jobs).ids, id ∈ t.ids) := by
  have hexec : ∀ b : Bool,
      execute fs paths oracle spawner cmd redirections b st t command_text =
        run_builtin fs paths oracle cmd redirections st t := by
    intro b
    unfold execute
    rw [if_pos h]
  refine ⟨by rw [hexec true, hexec false], ?_, ?_⟩
  · rw [hexec true]
    unfold run_builtin
    cases resolve_redirections redirections
        { stdin := InputHandle.inherit, stdout := OutputHandle.inherit,
          stderr := OutputHandle.inherit } with
    | error msg => rfl
    | ok r => rfl
  · intro id hid
    rw [hexec true] at hid
    unfold run_builtin at hid
    revert hid
    cases resolve_redirections redirections
        { stdin := InputHandle.inherit, stdout := OutputHandle.inherit,
          stderr := OutputHandle.inherit } with
    | error msg => exact fun hid => hid
    | ok r => exact fun hid => mem_ids_builtinsExecute hid

/-- Example `PATH` oracle for the C10 witness: nothing on `PATH`. -/
def pathsExample : PathOracle := ⟨fun _ => none⟩

/-- Example wait oracle for the C10 witness. -/
def waitOracleExample : WaitOracle :=
  ⟨fun _ => some (some 0), fun _ => some (ExitStatusModel.exited 0),
   fun _ => false, fun _ => true⟩

/-- Example spawn oracle for the C10 witness. -/
def spawnExample : SpawnOracle := ⟨none, 4242, 4242⟩

/-- Witness for C10 at a concrete input: `cd /tmp &` behaves exactly like
`cd /tmp` and prints no background-start line. -/
theorem C10_builtin_background_ignored_witness :
    execute fsExample pathsExample waitOracleExample spawnExample
      ⟨"cd", ["/tmp"]⟩ [] true stExample JobTable.new "cd /tmp" =
      execute fsExample pathsExample waitOracleExample spawnExample
        ⟨"cd", ["/tmp"]⟩ [] false stExample JobTable.new "cd /tmp" ∧
    (execute fsExample pathsExample waitOracleExample spawnExample
      ⟨"cd", ["/tmp"]⟩ [] true stExample JobTable.new
      "cd /tmp").bgStartPrinted = false :=
  ⟨(C10_builtin_background_ignored fsExample pathsExample waitOracleExample
      spawnExample ⟨"cd", ["/tmp"]⟩ [] stExample JobTable.new "cd /tmp"
      (by decide)).1,
   (C10_builtin_background_ignored fsExample pathsExample waitOracleExample
      spawnExample ⟨"cd", ["/tmp"]⟩ [] stExample JobTable.new "cd /tmp"
      (by decide)).2.1⟩

end JamesShell
